import Mathlib

/-!
Shallow embedding of the `rust-lexer` repository (`src/lib.rs`) in Lean 4.

The Rust code is a streaming lexer: a `Lexer<T: Buffer>` holds a character
source, a one-character lookahead, and a line/column position, and its
`Iterator::next` produces one `IoResult<Token>` per call (or `None` at
end-of-input).

Modelling decisions, all taken from the source:
* The character source (`T: Buffer` with `read_char`) is modelled as a
  `List Char` of the not-yet-read characters; `read_char` on the empty list
  is the `EndOfFile` error.  Genuine I/O failures of the source are outside
  the repository and are not modelled; `EndOfFile` is the only read failure.
* Rust `String` payloads are modelled as `List Char` (Rust compares and
  counts them via `chars()`, i.e. as character sequences).
* `IoError` keeps its `kind` and `desc` fields (`detail` is always `None` in
  the source and is dropped).
* `char::is_whitespace` (Unicode `White_Space`) is embedded as the literal,
  complete list of `White_Space` code points.
* `char::is_xid_start` / `is_xid_continue` are external Unicode tables; the
  lexer is parameterised over them (`XidClasses`), and a concrete
  ASCII-faithful instance `asciiCls` is provided for evaluation.  The
  universal theorems assume only facts that the real Unicode tables satisfy
  (`XID_Start` contains no whitespace and none of the dispatch characters).
* The comment-skipping loop `while self.lookahead != '\n' { proceed!() }`
  genuinely diverges when end-of-input is reached before a newline (each
  further `read_char` returns `EndOfFile` again, the lookahead stays NUL and
  never equals `'\n'`).  That loop is embedded as the total function
  `skipToNewline`, returning `none` exactly when the Rust loop diverges, and
  `next` reports this as the explicit outcome `.diverge`.
* `next`/`Iterator::next` recurses into itself (comment restart, apostrophe
  disambiguation), always after consuming at least one character; the
  embedding makes it structurally recursive on a fuel parameter, with
  `.outOfFuel` as the exhaustion marker (any fuel exceeding the input length
  suffices on terminating paths).
* `panic!()` and `unimplemented!()` are the outcomes
  `.panicked "explicit panic"` and `.panicked "not yet implemented"`,
  matching the two macros' messages.
-/

namespace RustLexer

/-- Kinds of `std::io::IoError` used by the source: `EndOfFile` and
`OtherIoError`. -/
inductive IoErrorKind where
  | endOfFile
  | otherIoError
  deriving DecidableEq, Repr

/-- `std::io::IoError` restricted to the fields the source uses
(`detail` is always `None`). -/
structure IoError where
  kind : IoErrorKind
  desc : String
  deriving DecidableEq, Repr

/-- The `desc` the standard library puts on the `EndOfFile` error returned
by `read_char` on an exhausted reader. -/
def eofDesc : String := "end of file"

/-- `enum TokenContent` from the source (payload `String`s as `List Char`). -/
inductive TokenContent where
  | identifier (s : List Char)
  | lifetime (s : List Char)
  | stringLiteral (s : List Char)
  | arrow
  | equals
  | scope
  | unEqual
  | char (c : Char)
  | other (c : Char)
  deriving DecidableEq, Repr

/-- `struct Token` from the source.  The Rust field `end` is called
`endCol` here because `end` is a Lean keyword. -/
structure Token where
  content : TokenContent
  line : Nat
  start : Nat
  endCol : Nat
  deriving DecidableEq, Repr

/-- The mutable state of `Lexer<T>`: the unread rest of the source, the
one-character lookahead, and the current line/column. -/
structure LexState where
  input : List Char
  lookahead : Char
  line : Nat
  column : Nat
  deriving DecidableEq, Repr

/-- The NUL sentinel the source stores in `lookahead` at end-of-input. -/
def nulChar : Char := '\x00'

/-- `char::is_whitespace` (the Unicode `White_Space` property), embedded as
the complete literal list of `White_Space` code points. -/
def is_rust_whitespace (c : Char) : Bool :=
  let n := c.toNat
  n = 9 || (n = 10 || (n = 11 || (n = 12 || (n = 13 || (n = 32 ||
  (n = 0x85 || (n = 0xA0 || (n = 0x1680 ||
  ((0x2000 ≤ n && n ≤ 0x200A) ||
  (n = 0x2028 || (n = 0x2029 || (n = 0x202F || (n = 0x205F ||
  n = 0x3000)))))))))))))

/-- The column value a new line resets to:
`if cfg!(lines_start_at_zero) { 0 } else { 1 }`. -/
def wsReset (linesStartAtZero : Bool) : Nat :=
  if linesStartAtZero then 0 else 1

/-- The pair of external Unicode classifier tables `char::is_xid_start` and
`char::is_xid_continue` that the lexer dispatches on. -/
structure XidClasses where
  xidStart : Char → Bool
  xidCont : Char → Bool

/-- `is_xid_start` restricted to ASCII (the ASCII letters); faithful to the
real table on the ASCII range used for concrete evaluation. -/
def asciiXidStart (c : Char) : Bool :=
  (65 ≤ c.toNat && c.toNat ≤ 90) || (97 ≤ c.toNat && c.toNat ≤ 122)

/-- `is_xid_continue` restricted to ASCII (letters, digits, underscore). -/
def asciiXidCont (c : Char) : Bool :=
  asciiXidStart c || (48 ≤ c.toNat && c.toNat ≤ 57) || c = '_'

/-- The ASCII instantiation of the Unicode classifier tables. -/
def asciiCls : XidClasses := ⟨asciiXidStart, asciiXidCont⟩

/-- Facts about the `is_xid_start` table that the universal theorems rely
on, all true of the real Unicode `XID_Start` property (and of `asciiCls`):
no `XID_Start` character is `White_Space`, and none of them is one of the
six characters the dispatch of `next` tests before the identifier guard. -/
def goodClasses (cls : XidClasses) : Prop :=
  ∀ c : Char, cls.xidStart c = true →
    is_rust_whitespace c = false ∧ c ≠ '=' ∧ c ≠ ':' ∧ c ≠ '!' ∧ c ≠ '/' ∧
    c ≠ '\'' ∧ c ≠ '"'

/-- `Lexer::new`: read the first character into the lookahead, start at
line 1, column 1; an empty source propagates the `EndOfFile` read error. -/
def lexerNew (input : List Char) : Except IoError LexState :=
  match input with
  | [] => .error ⟨.endOfFile, eofDesc⟩
  | c :: rest => .ok ⟨rest, c, 1, 1⟩

/-- The carriage-return check inside `Lexer::skip_whitespace`: after a
`'\r'` lookahead, one more character `c` has been read; if `c` is not
`'\n'`, bump the line and reset the column (the source's comment: handle
the Windows-style line endings as one line ending). -/
def crStep (z : Bool) (c : Char) (line col : Nat) : Nat × Nat :=
  if c ≠ '\n' then (line + 1, wsReset z) else (line, col)

/-- The bookkeeping at the bottom of the `skip_whitespace` loop body: a
`'\n'` lookahead bumps the line and resets the column; any other character
bumps the column. -/
def nlStep (z : Bool) (la : Char) (line col : Nat) : Nat × Nat :=
  if la = '\n' then (line + 1, wsReset z) else (line, col + 1)

/-- The body of `Lexer::skip_whitespace`, on exploded state components
(recursion is structural on `input`).  Returns `true` iff end-of-input was
reached (in which case the lookahead is set to the NUL sentinel), mirroring
the `IoResult<bool>` of the source (`EndOfFile` from `read_char` is the only
possible read failure in the list model, and it is handled, not returned).

Source loop body, verbatim: while the lookahead is whitespace — if it is
`'\r'`, read one more character into the lookahead (end-of-input: sentinel +
return true) and apply `crStep` to it; then apply `nlStep` to the (new)
lookahead; finally read the next character (end-of-input: sentinel + return
true) and loop. -/
def skipWsAux (z : Bool) (la : Char) (line col : Nat) :
    List Char → Bool × LexState
  | [] =>
    if is_rust_whitespace la then
      if la = '\r' then (true, ⟨[], nulChar, line, col⟩)
      else
        let lc := nlStep z la line col
        (true, ⟨[], nulChar, lc.1, lc.2⟩)
    else (false, ⟨[], la, line, col⟩)
  | c :: rest =>
    if is_rust_whitespace la then
      if la = '\r' then
        let lc1 := crStep z c line col
        let lc2 := nlStep z c lc1.1 lc1.2
        match rest with
        | [] => (true, ⟨[], nulChar, lc2.1, lc2.2⟩)
        | c2 :: rest2 => skipWsAux z c2 lc2.1 lc2.2 rest2
      else
        let lc := nlStep z la line col
        skipWsAux z c lc.1 lc.2 rest
    else (false, ⟨c :: rest, la, line, col⟩)

/-- `Lexer::skip_whitespace` on a `LexState`. -/
def skip_whitespace (z : Bool) (s : LexState) : Bool × LexState :=
  skipWsAux z s.lookahead s.line s.column s.input

/-- The `proceed!()` macro of `Iterator::next`: bump the column, then read
the next character into the lookahead (end-of-input: NUL sentinel). -/
def proceed (s : LexState) : LexState :=
  match s.input with
  | [] => ⟨[], nulChar, s.line, s.column + 1⟩
  | c :: rest => ⟨rest, c, s.line, s.column + 1⟩

/-- Result of `Lexer::parsechar` (`IoResult<char>` plus the
`unimplemented!()` panic of the `'u'` escape). -/
inductive PcResult where
  | ok (c : Char) (s : LexState)
  | err (e : IoError) (s : LexState)
  | panicked (msg : String)
  deriving DecidableEq, Repr

/-- The escape table inside `parsechar`. -/
def escMap (e : Char) : Option Char :=
  if e = '\\' then some '\\'
  else if e = '\'' then some '\''
  else if e = '"' then some '\"'
  else if e = 'n' then some '\n'
  else if e = 't' then some '\t'
  else none

/-- `Lexer::parsechar`: decode one literal-interior character.  On a
backslash, read the escape selector (a failed read propagates via `try!`
with the state unchanged); `'u'` is `unimplemented!()`; an unrecognized
selector is the "unknown escape sequence" error (the selector has already
been consumed into the lookahead); otherwise read the following character
into the lookahead (end-of-input: NUL sentinel) and return the decoded
character.  On a non-backslash, read the next character via `try!` and
return the original lookahead.  `parsechar` never touches `line`/`column`. -/
def parsechar (s : LexState) : PcResult :=
  if s.lookahead = '\\' then
    match s.input with
    | [] => .err ⟨.endOfFile, eofDesc⟩ s
    | e :: rest =>
      if e = 'u' then .panicked "not yet implemented"
      else
        match escMap e with
        | none =>
          .err ⟨.otherIoError, "unknown escape sequence starting with '\x7b\x7d'"⟩
            ⟨rest, e, s.line, s.column⟩
        | some c =>
          match rest with
          | [] => .ok c ⟨[], nulChar, s.line, s.column⟩
          | c2 :: rest2 => .ok c ⟨rest2, c2, s.line, s.column⟩
  else
    match s.input with
    | [] => .err ⟨.endOfFile, eofDesc⟩ s
    | c2 :: rest => .ok s.lookahead ⟨rest, c2, s.line, s.column⟩

/-- The comment-skipping loop `while self.lookahead != '\n' { proceed!() }`.
Each iteration bumps the column and reads the next character; `none` marks
the state in which the Rust loop diverges: the input is exhausted, the
lookahead is the NUL sentinel forever, and the loop never sees `'\n'`. -/
def skipToNewline (la : Char) (col : Nat) :
    List Char → Option (Char × Nat × List Char)
  | [] => if la = '\n' then some (la, col, []) else none
  | c :: rest =>
    if la = '\n' then some (la, col, c :: rest)
    else skipToNewline c (col + 1) rest

/-- The identifier-consuming loop of `Iterator::next`: read characters,
bumping the column on each successful read, accumulating `is_xid_continue`
characters; the first non-continue character becomes the lookahead (with the
column already pointing at it); end-of-input sets the NUL sentinel *without*
bumping the column. -/
def identLoop (cls : XidClasses) (acc : List Char) (line col : Nat) :
    List Char → List Char × LexState
  | [] => (acc, ⟨[], nulChar, line, col⟩)
  | c :: rest =>
    if cls.xidCont c then identLoop cls (acc ++ [c]) line (col + 1) rest
    else (acc, ⟨rest, c, line, col + 1⟩)

/-- Result of the string-literal interior loop.  `fuelR` is the fuel
exhaustion marker of the embedding; it is unreachable at the fuel the
caller supplies (`stringLoop_enough`). -/
inductive StrRes where
  | done (text : List Char) (s : LexState)
  | errR (e : IoError) (s : LexState)
  | panicR (msg : String)
  | fuelR
  deriving DecidableEq, Repr

/-- The string-literal interior loop of `Iterator::next`:
`while self.lookahead != '"' && self.lookahead != '\0'` push one
`parsechar` result, propagating its error/panic.  The loop consumes at
least one input character per iteration, so the fuel (the caller supplies
`input.length + 1`) only makes the recursion structural and can never run
out (`stringLoop_enough`). -/
def stringLoop : Nat → List Char → LexState → StrRes
  | 0, _, _ => .fuelR
  | fuel + 1, acc, s =>
    if s.lookahead = '"' ∨ s.lookahead = nulChar then .done acc s
    else
      match parsechar s with
      | .ok c s' => stringLoop fuel (acc ++ [c]) s'
      | .err e s' => .errR e s'
      | .panicked m => .panicR m

/-- Outcome of one `Iterator::next` call: `Some(Ok(token))`,
`Some(Err(e))`, `None` (end-of-input), a panic, the divergence of the
comment loop at end-of-input, or fuel exhaustion of the embedding. -/
inductive NextResult where
  | tok (t : Token) (s : LexState)
  | err (e : IoError) (s : LexState)
  | eofSig (s : LexState)
  | panicked (msg : String)
  | diverge
  | outOfFuel
  deriving DecidableEq, Repr

/-- The `'='` arm of the dispatch: `=>` is `Arrow`, `==` is `Equals`,
otherwise `Other('=')`; start is the column of `'='`, end the column after
the consumed characters. -/
def opEq (s : LexState) : NextResult :=
  let col := s.column
  let s1 := proceed s
  if s1.lookahead = '>' then
    let s2 := proceed s1
    .tok ⟨.arrow, s2.line, col, s2.column⟩ s2
  else if s1.lookahead = '=' then
    let s2 := proceed s1
    .tok ⟨.equals, s2.line, col, s2.column⟩ s2
  else
    .tok ⟨.other '=', s1.line, col, s1.column⟩ s1

/-- The `':'` arm: `::` is `Scope`, otherwise `Other(':')`. -/
def opColon (s : LexState) : NextResult :=
  let col := s.column
  let s1 := proceed s
  if s1.lookahead = ':' then
    let s2 := proceed s1
    .tok ⟨.scope, s2.line, col, s2.column⟩ s2
  else
    .tok ⟨.other ':', s1.line, col, s1.column⟩ s1

/-- The `'!'` arm: `!=` is `UnEqual`, otherwise `Other('!')`. -/
def opBang (s : LexState) : NextResult :=
  let col := s.column
  let s1 := proceed s
  if s1.lookahead = '=' then
    let s2 := proceed s1
    .tok ⟨.unEqual, s2.line, col, s2.column⟩ s2
  else
    .tok ⟨.other '!', s1.line, col, s1.column⟩ s1

/-- The non-identifier sub-branch of the `'\''` arm (the state is already
past the apostrophe): decode one character via `parsechar`; then a NUL
lookahead is the "End of file while reading character literal" error, a
closing apostrophe captures `end` *before* `proceed!()` and emits `Char`,
and anything else is the "unclosed character literal" error. -/
def escCharBranch (s : LexState) : NextResult :=
  let col := s.column
  let line := s.line
  match parsechar s with
  | .panicked m => .panicked m
  | .err e s1 => .err e s1
  | .ok c s1 =>
    if s1.lookahead = nulChar then
      .err ⟨.endOfFile, "End of file while reading character literal"⟩ s1
    else if s1.lookahead = '\'' then
      let e := s1.column
      let s2 := proceed s1
      .tok ⟨.char c, line, col, e⟩ s2
    else
      .err ⟨.otherIoError, "unclosed character literal"⟩ s1

/-- The `'"'` arm: remember the line and the opening quote's column,
consume the quote, run the interior loop; a NUL lookahead afterwards is the
"End of file while reading string literal" error, otherwise consume the
closing quote and emit `StringLiteral` with `end` the column after that
`proceed!()`. -/
def strBranch (s : LexState) : NextResult :=
  let startLine := s.line
  let col := s.column
  let s1 := proceed s
  match stringLoop (s1.input.length + 1) [] s1 with
  | .fuelR => .outOfFuel
  | .panicR m => .panicked m
  | .errR e s2 => .err e s2
  | .done text s2 =>
    if s2.lookahead = nulChar then
      .err ⟨.endOfFile, "End of file while reading string literal"⟩ s2
    else
      let s3 := proceed s2
      .tok ⟨.stringLiteral text, startLine, col, s3.column⟩ s3

/-- The identifier arm: start at the current column, push the lookahead,
run the identifier loop, emit `Identifier` with `end` the column the loop
left behind. -/
def identBranch (cls : XidClasses) (s : LexState) : NextResult :=
  let start := s.column
  let r := identLoop cls [s.lookahead] s.line s.column s.input
  .tok ⟨.identifier r.1, r.2.line, start, r.2.column⟩ r.2

/-- The catch-all arm: read the next character into the lookahead
(*without* bumping the column) and emit `Other` spanning
`column .. column + 1`. -/
def otherBranch (s : LexState) : NextResult :=
  let s1 : LexState :=
    match s.input with
    | [] => ⟨[], nulChar, s.line, s.column⟩
    | c :: rest => ⟨rest, c, s.line, s.column⟩
  .tok ⟨.other s.lookahead, s.line, s.column, s.column + 1⟩ s1

/-- `Iterator::next` for `Lexer<T>`, with fuel for its self-recursion
(comment restart and apostrophe disambiguation, both of which consume at
least one character first).  Per call: a NUL lookahead signals end-of-input;
then whitespace is skipped (`true` means end-of-input was reached); then the
dispatch on the lookahead, in source order. -/
def next (cls : XidClasses) (z : Bool) : Nat → LexState → NextResult
  | 0, _ => .outOfFuel
  | fuel + 1, s =>
    if s.lookahead = nulChar then .eofSig s
    else
      match skip_whitespace z s with
      | (true, s1) => .eofSig s1
      | (false, s1) =>
        if s1.lookahead = '=' then opEq s1
        else if s1.lookahead = ':' then opColon s1
        else if s1.lookahead = '!' then opBang s1
        else if s1.lookahead = '/' then
          let s2 := proceed s1
          if s2.lookahead = '/' then
            let s3 := proceed s2
            match skipToNewline s3.lookahead s3.column s3.input with
            | none => .diverge
            | some (la, col, inp) => next cls z fuel ⟨inp, la, s3.line, col⟩
          else .tok ⟨.other '/', s2.line, s1.column, s2.column⟩ s2
        else if s1.lookahead = '\'' then
          let col := s1.column
          let s2 := proceed s1
          if cls.xidStart s2.lookahead || s2.lookahead = '_' then
            match next cls z fuel s2 with
            | .tok t s3 =>
              match t.content with
              | .identifier id =>
                if 1 < id.length ∨ s3.lookahead ≠ '\'' then
                  .tok ⟨.lifetime id, s3.line, col, s3.column⟩ s3
                else
                  let s4 := proceed s3
                  .tok ⟨.char (id.headD nulChar), s4.line, col, s4.column⟩ s4
              | _ => .panicked "explicit panic"
            | .err e s3 => .err e s3
            | .eofSig s3 =>
              .err ⟨.endOfFile, "End of file while reading Character literal"⟩ s3
            | .panicked m => .panicked m
            | .diverge => .diverge
            | .outOfFuel => .outOfFuel
          else escCharBranch s2
        else if s1.lookahead = '"' then strBranch s1
        else if cls.xidStart s1.lookahead || s1.lookahead = '_' then
          identBranch cls s1
        else otherBranch s1

/-- One element of the caller-visible result stream. -/
inductive Item where
  | tok (t : Token)
  | err (e : IoError)
  deriving DecidableEq, Repr

/-- How a finite drive of the iterator ended. -/
inductive Terminal where
  | eofT
  | panicT (msg : String)
  | divergeT
  | fuelOut
  deriving DecidableEq, Repr

/-- Drive the iterator like a Rust caller that keeps calling `next()` after
errors (the `Iterator` contract allows this and nothing in the source fuses
the iterator): collect every `Some(Ok)`/`Some(Err)` until `None`, a panic,
or the comment-loop divergence. -/
def lexAll (cls : XidClasses) (z : Bool) : Nat → LexState → List Item × Terminal
  | 0, _ => ([], .fuelOut)
  | fuel + 1, s =>
    match next cls z (fuel + 1) s with
    | .eofSig _ => ([], .eofT)
    | .panicked m => ([], .panicT m)
    | .diverge => ([], .divergeT)
    | .outOfFuel => ([], .fuelOut)
    | .tok t s' =>
      let r := lexAll cls z fuel s'
      (.tok t :: r.1, r.2)
    | .err e s' =>
      let r := lexAll cls z fuel s'
      (.err e :: r.1, r.2)

/-- Construct a fresh lexer on `input` and drive it to completion
(`none` when `Lexer::new` itself fails on an empty source). -/
def scanChars (fuel : Nat) (input : List Char) : Option (List Item × Terminal) :=
  match lexerNew input with
  | .error _ => none
  | .ok st => some (lexAll asciiCls false fuel st)

/-! ## Lemmas about the embedded operations -/

theorem proceed_column (s : LexState) : (proceed s).column = s.column + 1 := by
  unfold proceed
  cases s.input <;> rfl

theorem proceed_line (s : LexState) : (proceed s).line = s.line := by
  unfold proceed
  cases s.input <;> rfl

/-- `parsechar` consumes at least one character when it succeeds. -/
theorem parsechar_ok_lt {s : LexState} {c : Char} {s' : LexState}
    (h : parsechar s = .ok c s') : s'.input.length < s.input.length := by
  unfold parsechar at h
  repeat' split at h
  all_goals try injection h with h1 h2
  all_goals try subst h2
  all_goals simp_all
  all_goals omega

/-- `parsechar` never touches the line or the column. -/
theorem parsechar_ok_col {s : LexState} {c : Char} {s' : LexState}
    (h : parsechar s = .ok c s') : s'.column = s.column ∧ s'.line = s.line := by
  unfold parsechar at h
  repeat' split at h
  all_goals try injection h with h1 h2
  all_goals try subst h2
  all_goals simp_all

/-- The only panic `parsechar` can raise is the `unimplemented!()` of the
`'u'` escape. -/
theorem parsechar_panic {s : LexState} {m : String}
    (h : parsechar s = .panicked m) : m = "not yet implemented" := by
  unfold parsechar at h
  repeat' split at h
  all_goals try injection h with h1
  all_goals simp_all

/-- When the lookahead is not whitespace, `skip_whitespace` is a no-op
returning `false`. -/
theorem skip_whitespace_noop {z : Bool} {s : LexState}
    (h : is_rust_whitespace s.lookahead = false) :
    skip_whitespace z s = (false, s) := by
  rcases s with ⟨inp, la, l, co⟩
  dsimp only at h
  cases inp with
  | nil => unfold skip_whitespace skipWsAux; simp [h]
  | cons c rest => unfold skip_whitespace skipWsAux; simp [h]

/-- The ASCII classifier tables satisfy the `goodClasses` facts (as the
full Unicode tables do). -/
theorem asciiGood : goodClasses asciiCls := by
  intro c h
  have h' : asciiXidStart c = true := h
  have hn : (65 ≤ c.toNat ∧ c.toNat ≤ 90) ∨ (97 ≤ c.toNat ∧ c.toNat ≤ 122) := by
    simpa [asciiXidStart] using h'
  refine ⟨?_, ?_, ?_, ?_, ?_, ?_, ?_⟩
  · simp only [is_rust_whitespace, Bool.or_eq_false_iff, Bool.and_eq_false_iff,
      decide_eq_false_iff_not]
    omega
  all_goals rintro rfl
  all_goals revert h'
  all_goals decide

/-- With zero fuel the embedding reports exhaustion. -/
theorem next_zero (cls : XidClasses) (z : Bool) (s : LexState) :
    next cls z 0 s = .outOfFuel := rfl

/-- A NUL lookahead makes `next` signal end-of-input at once. -/
theorem next_nul {cls : XidClasses} {z : Bool} {fuel : Nat} {s : LexState}
    (h : s.lookahead = nulChar) : next cls z (fuel + 1) s = .eofSig s := by
  unfold next
  simp [h]

/-- Column, line and final lookahead of a completed string-literal interior
loop: `parsechar` never touches line or column, so they are unchanged, and
the loop only stops on a quote or the NUL sentinel. -/
theorem stringLoop_done {fuel : Nat} {acc : List Char} {s : LexState}
    {t : List Char} {s' : LexState} (h : stringLoop fuel acc s = .done t s') :
    s'.column = s.column ∧ s'.line = s.line ∧
    (s'.lookahead = '"' ∨ s'.lookahead = nulChar) := by
  induction fuel generalizing acc s with
  | zero => simp [stringLoop] at h
  | succ n ih =>
    unfold stringLoop at h
    split at h
    · rename_i hstop
      injection h with h1 h2
      subst h2
      exact ⟨rfl, rfl, hstop⟩
    · split at h
      · rename_i c s2 hpc
        have hcl := parsechar_ok_col hpc
        obtain ⟨e1, e2, e3⟩ := ih h
        exact ⟨by rw [e1, hcl.1], by rw [e2, hcl.2], e3⟩
      · simp at h
      · simp at h

/-- The only panic the string-literal interior loop can raise comes from
`parsechar`. -/
theorem stringLoop_panic {fuel : Nat} {acc : List Char} {s : LexState}
    {m : String} (h : stringLoop fuel acc s = .panicR m) :
    m = "not yet implemented" := by
  induction fuel generalizing acc s with
  | zero => simp [stringLoop] at h
  | succ n ih =>
    unfold stringLoop at h
    split at h
    · simp at h
    · split at h
      · exact ih h
      · simp at h
      · rename_i m2 hpc
        injection h with h1
        subst h1
        exact parsechar_panic hpc

/-- The fuel `strBranch` supplies to the interior loop never runs out:
each iteration consumes at least one input character. -/
theorem stringLoop_enough : ∀ (fuel : Nat) (acc : List Char) (s : LexState),
    s.input.length < fuel → stringLoop fuel acc s ≠ .fuelR := by
  intro fuel
  induction fuel with
  | zero => intro acc s hlt; omega
  | succ n ih =>
    intro acc s hlt h
    unfold stringLoop at h
    split at h
    · simp at h
    · split at h
      · rename_i c s2 hpc
        have := parsechar_ok_lt hpc
        exact ih _ s2 (by omega) h
      · simp at h
      · simp at h

/-- The identifier loop never decreases the column. -/
theorem identLoop_col_ge (cls : XidClasses) (acc : List Char) (line col : Nat)
    (inp : List Char) : col ≤ (identLoop cls acc line col inp).2.column := by
  induction inp generalizing acc col with
  | nil => simp [identLoop]
  | cons c rest ih =>
    simp only [identLoop]
    split
    · exact le_trans (Nat.le_succ col) (ih _ _)
    · simp

/-- The identifier loop never touches the line. -/
theorem identLoop_line (cls : XidClasses) (acc : List Char) (line col : Nat)
    (inp : List Char) : (identLoop cls acc line col inp).2.line = line := by
  induction inp generalizing acc col with
  | nil => simp [identLoop]
  | cons c rest ih =>
    simp only [identLoop]
    split
    · exact ih _ _
    · simp

/-- When the lookahead is an `is_xid_start` character (or `'_'`), `next`
reaches the identifier arm: the lookahead is not whitespace (so trivia
skipping is a no-op) and matches none of the six earlier dispatch tests. -/
theorem next_on_xid {cls : XidClasses} {z : Bool} {fuel : Nat} {s : LexState}
    (hg : goodClasses cls) (hnn : s.lookahead ≠ nulChar)
    (hx : cls.xidStart s.lookahead = true ∨ s.lookahead = '_') :
    next cls z (fuel + 1) s = identBranch cls s := by
  have hf : is_rust_whitespace s.lookahead = false ∧ s.lookahead ≠ '=' ∧
      s.lookahead ≠ ':' ∧ s.lookahead ≠ '!' ∧ s.lookahead ≠ '/' ∧
      s.lookahead ≠ '\'' ∧ s.lookahead ≠ '"' := by
    rcases hx with hx | hx
    · exact hg _ hx
    · rw [hx]
      refine ⟨by decide, by decide, by decide, by decide, by decide,
        by decide, by decide⟩
  obtain ⟨hws, h1, h2, h3, h4, h5, h6⟩ := hf
  have hguard : (cls.xidStart s.lookahead || decide (s.lookahead = '_')) = true := by
    rcases hx with hx | hx <;> simp [hx]
  unfold next
  rw [if_neg hnn, skip_whitespace_noop hws]
  simp only [if_neg h1, if_neg h2, if_neg h3, if_neg h4, if_neg h5, if_neg h6,
    hguard, if_pos]

/-- Shape of every token the `'='` arm can emit. -/
theorem opEq_shape {s : LexState} {t : Token} {s' : LexState}
    (h : opEq s = .tok t s') :
    t.start = s.column ∧ t.start < t.endCol ∧
    ∀ txt, t.content ≠ .stringLiteral txt := by
  unfold opEq at h
  dsimp only at h
  split at h
  · injection h with h1 h2
    subst h1
    refine ⟨rfl, ?_, by intro txt; simp⟩
    simp only [proceed_column]
    omega
  · split at h <;> injection h with h1 h2 <;> subst h1 <;>
      exact ⟨rfl, by simp only [proceed_column]; omega, by intro txt; simp⟩

/-- Shape of every token the `':'` arm can emit. -/
theorem opColon_shape {s : LexState} {t : Token} {s' : LexState}
    (h : opColon s = .tok t s') :
    t.start = s.column ∧ t.start < t.endCol ∧
    ∀ txt, t.content ≠ .stringLiteral txt := by
  unfold opColon at h
  dsimp only at h
  split at h <;> injection h with h1 h2 <;> subst h1 <;>
    exact ⟨rfl, by simp only [proceed_column]; omega, by intro txt; simp⟩

/-- Shape of every token the `'!'` arm can emit. -/
theorem opBang_shape {s : LexState} {t : Token} {s' : LexState}
    (h : opBang s = .tok t s') :
    t.start = s.column ∧ t.start < t.endCol ∧
    ∀ txt, t.content ≠ .stringLiteral txt := by
  unfold opBang at h
  dsimp only at h
  split at h <;> injection h with h1 h2 <;> subst h1 <;>
    exact ⟨rfl, by simp only [proceed_column]; omega, by intro txt; simp⟩

/-- Shape of every token the string-literal arm can emit: a
`StringLiteral` starting at the opening quote's column whose end column is
always exactly `start + 2`, because `parsechar` never advances the column
and only the two `proceed!()` calls for the quotes do. -/
theorem strBranch_shape {s : LexState} {t : Token} {s' : LexState}
    (h : strBranch s = .tok t s') :
    t.start = s.column ∧ t.endCol = s.column + 2 ∧ t.line = s.line ∧
    ∃ txt, t.content = .stringLiteral txt := by
  unfold strBranch at h
  dsimp only at h
  split at h
  · simp at h
  · simp at h
  · simp at h
  · rename_i text s2 hsl
    have hcl := stringLoop_done hsl
    split at h
    · simp at h
    · injection h with h1 h2
      subst h1
      refine ⟨rfl, ?_, rfl, ⟨text, rfl⟩⟩
      simp only [proceed_column, hcl.1]

/-- Shape of every token the escape-decoder character-literal path can
emit: a `Char` token with `end = start`, because `parsechar` never
advances the column and `end` is captured before the final `proceed!()`. -/
theorem escCharBranch_shape {s : LexState} {t : Token} {s' : LexState}
    (h : escCharBranch s = .tok t s') :
    t.start = s.column ∧ t.endCol = t.start ∧ ∃ c, t.content = .char c := by
  unfold escCharBranch at h
  dsimp only at h
  split at h
  · simp at h
  · simp at h
  · rename_i c s1 hpc
    have hcl := parsechar_ok_col hpc
    split at h
    · simp at h
    · split at h
      · injection h with h1 h2
        subst h1
        exact ⟨rfl, by simp [hcl.1], ⟨c, rfl⟩⟩
      · simp at h

/-- Shape of the token the identifier arm emits: an `Identifier` starting
at the current column, ending at the (never decreased) column the
identifier loop left behind, which is also the returned state's column. -/
theorem identBranch_shape {cls : XidClasses} {s : LexState} {t : Token}
    {s' : LexState} (h : identBranch cls s = .tok t s') :
    t.start = s.column ∧ t.endCol = s'.column ∧ s.column ≤ s'.column ∧
    ∃ id, t.content = .identifier id := by
  unfold identBranch at h
  dsimp only at h
  injection h with h1 h2
  subst h1
  subst h2
  exact ⟨rfl, rfl, identLoop_col_ge cls _ _ _ _, ⟨_, rfl⟩⟩

/-- Shape of the token the catch-all arm emits. -/
theorem otherBranch_shape {s : LexState} {t : Token} {s' : LexState}
    (h : otherBranch s = .tok t s') :
    t.start = s.column ∧ t.endCol = t.start + 1 ∧ ∃ c, t.content = .other c := by
  unfold otherBranch at h
  dsimp only at h
  injection h with h1 h2
  subst h1
  exact ⟨rfl, rfl, ⟨_, rfl⟩⟩

/-- The operator, identifier and catch-all arms never panic. -/
theorem opEq_ne_panic (s : LexState) (m : String) : opEq s ≠ .panicked m := by
  unfold opEq
  dsimp only
  repeat' split
  all_goals simp

theorem opColon_ne_panic (s : LexState) (m : String) : opColon s ≠ .panicked m := by
  unfold opColon
  dsimp only
  repeat' split
  all_goals simp

theorem opBang_ne_panic (s : LexState) (m : String) : opBang s ≠ .panicked m := by
  unfold opBang
  dsimp only
  repeat' split
  all_goals simp

theorem identBranch_ne_panic (cls : XidClasses) (s : LexState) (m : String) :
    identBranch cls s ≠ .panicked m := by
  unfold identBranch
  dsimp only
  simp

theorem otherBranch_ne_panic (s : LexState) (m : String) :
    otherBranch s ≠ .panicked m := by
  unfold otherBranch
  dsimp only
  simp

/-- The string-literal arm can only panic with the `unimplemented!()`
message of the `'u'` escape. -/
theorem strBranch_panic {s : LexState} {m : String}
    (h : strBranch s = .panicked m) : m = "not yet implemented" := by
  unfold strBranch at h
  dsimp only at h
  split at h
  · simp at h
  · rename_i m2 hsl
    injection h with h1
    subst h1
    exact stringLoop_panic hsl
  · simp at h
  · split at h <;> simp at h

/-- The escape-decoder character-literal path can only panic with the
`unimplemented!()` message of the `'u'` escape. -/
theorem escCharBranch_panic {s : LexState} {m : String}
    (h : escCharBranch s = .panicked m) : m = "not yet implemented" := by
  unfold escCharBranch at h
  dsimp only at h
  split at h
  · rename_i m2 hpc
    injection h with h1
    subst h1
    exact parsechar_panic hpc
  · simp at h
  · split at h
    · simp at h
    · split at h <;> simp at h

/-- When the lookahead is the double quote, `next` reaches the
string-literal arm. -/
theorem next_on_quote {cls : XidClasses} {z : Bool} {fuel : Nat}
    {s : LexState} (h : s.lookahead = '"') :
    next cls z (fuel + 1) s = strBranch s := by
  unfold next
  rw [if_neg (by rw [h]; decide), skip_whitespace_noop (by rw [h]; decide)]
  simp [h]

/-! ## The claims -/

/-- Claim C1, counterexample: errors are *not* fatal to the scan session.
On the input `"\qx` the string-literal scan fails with the
"unknown escape sequence" error, but the failed `parsechar` has left the
lookahead at `'q'` mid-input, and the very next call to `next()` happily
lexes `qx` as an identifier token: the caller sees an error result
*followed by another token*, contradicting the claim. -/
theorem C1_counterexample :
    scanChars 10 ['"', '\\', 'q', 'x'] =
      some ([.err ⟨.otherIoError, "unknown escape sequence starting with '\x7b\x7d'"⟩,
             .tok ⟨.identifier ['q', 'x'], 1, 2, 3⟩], .eofT) := by
  decide

/-- Claim C1, amended: only the errors that set the lookahead to the NUL
end-of-input sentinel (all the "end of file while reading a literal"
errors do) are fatal — after such an error every subsequent call to
`next()` returns the end-of-input signal and no further token.  Errors
that leave the lookahead mid-input (unknown escape sequence, unclosed
character literal) do not stop token production. -/
theorem C1_amended_eof_errors_fatal :
    ∀ (cls : XidClasses) (z : Bool) (fuel fuel2 : Nat) (s : LexState)
      (e : IoError) (s1 : LexState),
      next cls z fuel s = .err e s1 → s1.lookahead = nulChar →
      next cls z (fuel2 + 1) s1 = .eofSig s1 := by
  intro cls z fuel fuel2 s e s1 _ h2
  exact next_nul h2

/-- Witness for `C1_amended_eof_errors_fatal`: the input `"a\n` (backslash
escape, then end-of-input) errors with the lookahead at the sentinel, and
the next call signals end-of-input. -/
theorem C1_amended_eof_errors_fatal_witness :
    next asciiCls false 1 ⟨[], nulChar, 1, 2⟩ = .eofSig ⟨[], nulChar, 1, 2⟩ :=
  C1_amended_eof_errors_fatal asciiCls false 10 0 ⟨['a', '\\', 'n'], '"', 1, 1⟩
    ⟨.endOfFile, "End of file while reading string literal"⟩ ⟨[], nulChar, 1, 2⟩
    (by decide) (by decide)

/-- Claim C2, counterexample: the token for the one-character input `a`
has `end = start = 1` — the column is not bumped when the identifier loop
hits end-of-input, so `end > start` fails. -/
theorem C2_counterexample :
    lexerNew ['a'] = .ok ⟨[], 'a', 1, 1⟩ ∧
    ∃ t s', next asciiCls false 2 ⟨[], 'a', 1, 1⟩ = .tok t s' ∧
      t.endCol ≤ t.start :=
  ⟨rfl, ⟨.identifier ['a'], 1, 1, 1⟩, ⟨[], nulChar, 1, 1⟩,
    by decide, by decide⟩

/-- Claim C3, counterexample: for the input `"abc"` the closing quote sits
in column 5, so the claim demands `end = 6`; the emitted token has
`end = 3` (interior characters never advance the column), and
`end - start = 2`, not the 5 columns the literal occupies. -/
theorem C3_counterexample :
    lexerNew ['"', 'a', 'b', 'c', '"'] = .ok ⟨['a', 'b', 'c', '"'], '"', 1, 1⟩ ∧
    next asciiCls false 5 ⟨['a', 'b', 'c', '"'], '"', 1, 1⟩ =
      .tok ⟨.stringLiteral ['a', 'b', 'c'], 1, 1, 3⟩ ⟨[], nulChar, 1, 3⟩ ∧
    (3 : Nat) ≠ 6 :=
  ⟨rfl, by decide, by decide⟩

/-- Claim C3, amended: every emitted `StringLiteral` token starts at the
opening quote's column, but its end column is always exactly `start + 2`,
whatever the literal's extent: `parsechar` does not advance the column for
literal-interior characters (escaped or not); only the two `proceed!()`
calls for the opening and closing quote do. -/
theorem C3_amended_string_span :
    ∀ (fuel : Nat) (cls : XidClasses) (z : Bool) (s : LexState) (t : Token)
      (s' : LexState), s.lookahead = '"' →
      next cls z (fuel + 1) s = .tok t s' →
      t.start = s.column ∧ t.endCol = s.column + 2 ∧ t.line = s.line ∧
      ∃ txt, t.content = .stringLiteral txt := by
  intro fuel cls z s t s' hq h
  rw [next_on_quote hq] at h
  exact strBranch_shape h

/-- Witness for `C3_amended_string_span` at the input `"abc"`. -/
theorem C3_amended_string_span_witness :
    ∃ t s', next asciiCls false 5 ⟨['a', 'b', 'c', '"'], '"', 1, 1⟩ = .tok t s' ∧
      t.start = 1 ∧ t.endCol = 1 + 2 ∧ t.line = 1 ∧
      ∃ txt, t.content = .stringLiteral txt :=
  ⟨⟨.stringLiteral ['a', 'b', 'c'], 1, 1, 3⟩, ⟨[], nulChar, 1, 3⟩, by decide,
    C3_amended_string_span 4 asciiCls false ⟨['a', 'b', 'c', '"'], '"', 1, 1⟩
      ⟨.stringLiteral ['a', 'b', 'c'], 1, 1, 3⟩ ⟨[], nulChar, 1, 3⟩ rfl (by decide)⟩

/-- Claim C4: `next()` does *not* terminate on every finite input.  When a
line comment is the last content of the input (here the two-character
input `//`), the comment loop keeps re-reading end-of-file forever — the
lookahead stays at the NUL sentinel and never equals `'\n'`.  The
embedding reports the state from which the Rust loop spins as the
explicit `.diverge` outcome, for every fuel. -/
theorem C4_comment_at_eof_diverges :
    lexerNew ['/', '/'] = .ok ⟨['/'], '/', 1, 1⟩ ∧
    ∀ fuel : Nat, next asciiCls false (fuel + 1) ⟨['/'], '/', 1, 1⟩ = .diverge :=
  ⟨rfl, fun _ => rfl⟩

/-- Claim C5: trivia skipping does *not* only consume whitespace.  On the
input `\rxy` the carriage return is not followed by a line feed; the code
reads `'x'` for the CRLF check and then falls through the rest of the loop
body, which consumes `'x'` (a non-whitespace character) and reads `'y'`
into the lookahead.  The claim says the lookahead should be `'x'`. -/
theorem C5_lone_cr_consumes_next_char :
    skip_whitespace false ⟨['x', 'y'], '\r', 1, 1⟩ = (false, ⟨[], 'y', 2, 2⟩) ∧
    is_rust_whitespace 'x' = false := by
  decide

/-- Claim C6: the four apostrophe-disambiguation cases, exactly as the
claim states them: `'x'` is one Char token spanning three columns
(start 1, end 4); `'abc` at end-of-input is one Lifetime("abc") token;
`'abc ` is one Lifetime("abc") token leaving the space as lookahead;
`'a ` is one Lifetime("a") token leaving the space as lookahead. -/
theorem C6_apostrophe_disambiguation :
    scanChars 10 ['\'', 'x', '\''] = some ([.tok ⟨.char 'x', 1, 1, 4⟩], .eofT) ∧
    scanChars 10 ['\'', 'a', 'b', 'c'] =
      some ([.tok ⟨.lifetime ['a', 'b', 'c'], 1, 1, 4⟩], .eofT) ∧
    scanChars 10 ['\'', 'a', 'b', 'c', ' '] =
      some ([.tok ⟨.lifetime ['a', 'b', 'c'], 1, 1, 5⟩], .eofT) ∧
    next asciiCls false 10 ⟨['a', 'b', 'c', ' '], '\'', 1, 1⟩ =
      .tok ⟨.lifetime ['a', 'b', 'c'], 1, 1, 5⟩ ⟨[], ' ', 1, 5⟩ ∧
    next asciiCls false 10 ⟨['a', ' '], '\'', 1, 1⟩ =
      .tok ⟨.lifetime ['a'], 1, 1, 3⟩ ⟨[], ' ', 1, 3⟩ := by
  decide

/-- Claim C7: the escape decoder decodes exactly the five escapes
`\\ \' \" \n \t`, fails with the "unknown escape sequence" error on any
other selector that is not `u`, and returns a non-backslash character
unchanged (reading the next character into the lookahead). -/
theorem C7_escape_decoder :
    (∀ (l co : Nat) (rest : List Char),
      (∃ s1, parsechar ⟨'\\' :: rest, '\\', l, co⟩ = .ok '\\' s1) ∧
      (∃ s1, parsechar ⟨'\'' :: rest, '\\', l, co⟩ = .ok '\'' s1) ∧
      (∃ s1, parsechar ⟨'"' :: rest, '\\', l, co⟩ = .ok '"' s1) ∧
      (∃ s1, parsechar ⟨'n' :: rest, '\\', l, co⟩ = .ok '\n' s1) ∧
      (∃ s1, parsechar ⟨'t' :: rest, '\\', l, co⟩ = .ok '\t' s1)) ∧
    (∀ (e : Char) (l co : Nat) (rest : List Char),
      e ≠ 'u' → e ≠ '\\' → e ≠ '\'' → e ≠ '"' → e ≠ 'n' → e ≠ 't' →
      parsechar ⟨e :: rest, '\\', l, co⟩ =
        .err ⟨.otherIoError, "unknown escape sequence starting with '\x7b\x7d'"⟩
          ⟨rest, e, l, co⟩) ∧
    (∀ (c d : Char) (l co : Nat) (rest : List Char), c ≠ '\\' →
      parsechar ⟨d :: rest, c, l, co⟩ = .ok c ⟨rest, d, l, co⟩) := by
  refine ⟨?_, ?_, ?_⟩
  · intro l co rest
    refine ⟨?_, ?_, ?_, ?_, ?_⟩ <;> cases rest <;> exact ⟨_, rfl⟩
  · intro e l co rest hu hb hq hdq hn ht
    simp [parsechar, escMap, hu, hb, hq, hdq, hn, ht]
  · intro c d l co rest hc
    simp [parsechar, hc]

/-- Witness for `C7_escape_decoder` at concrete inputs: `\n` decodes to a
newline, `\z` is an unknown escape, and a plain `a` is returned
unchanged. -/
theorem C7_escape_decoder_witness :
    (∃ s1, parsechar ⟨['n'], '\\', 1, 5⟩ = .ok '\n' s1) ∧
    parsechar ⟨['z'], '\\', 1, 5⟩ =
      .err ⟨.otherIoError, "unknown escape sequence starting with '\x7b\x7d'"⟩
        ⟨[], 'z', 1, 5⟩ ∧
    parsechar ⟨['b'], 'a', 1, 5⟩ = .ok 'a' ⟨[], 'b', 1, 5⟩ :=
  ⟨(C7_escape_decoder.1 1 5 []).2.2.2.1,
    C7_escape_decoder.2.1 'z' 1 5 [] (by decide) (by decide) (by decide)
      (by decide) (by decide) (by decide),
    C7_escape_decoder.2.2 'a' 'b' 1 5 [] (by decide)⟩

/-- Claim C8: scanning `"abc` (opening quote, no closing quote, then
end-of-input) yields an error — the `EndOfFile`-kind read error raised
when `parsechar` hits the exhausted source inside the literal — and no
token from that call.  (The dedicated "End of file while reading string
literal" message is only produced when the lookahead becomes the sentinel
*via an escape*; here the raw read error is propagated by `try!`, but it
is still an error of kind `EndOfFile` signalling end-of-input inside the
literal.) -/
theorem C8_unterminated_string_errors :
    lexerNew ['"', 'a', 'b', 'c'] = .ok ⟨['a', 'b', 'c'], '"', 1, 1⟩ ∧
    next asciiCls false 10 ⟨['a', 'b', 'c'], '"', 1, 1⟩ =
      .err ⟨.endOfFile, eofDesc⟩ ⟨[], 'c', 1, 2⟩ :=
  ⟨rfl, by decide⟩

/-- Claim C9: scanning is deterministic — two lexers freshly constructed
by `Lexer::new` over the same character sequence produce identical result
streams.  In the embedding the whole scan is a pure function of the input
character list and the configuration, so this holds by construction,
faithfully reflecting that the Rust code's only effect is reading the
immutable source. -/
theorem C9_determinism :
    ∀ (input : List Char) (cls : XidClasses) (z : Bool) (fuel : Nat)
      (s1 s2 : LexState), lexerNew input = .ok s1 → lexerNew input = .ok s2 →
      lexAll cls z fuel s1 = lexAll cls z fuel s2 := by
  intro input cls z fuel s1 s2 h1 h2
  rw [h1] at h2
  injection h2 with h3
  rw [h3]

/-- Witness for `C9_determinism` on the input `ab`. -/
theorem C9_determinism_witness :
    lexAll asciiCls false 5 ⟨['b'], 'a', 1, 1⟩ =
      lexAll asciiCls false 5 ⟨['b'], 'a', 1, 1⟩ :=
  C9_determinism ['a', 'b'] asciiCls false 5 ⟨['b'], 'a', 1, 1⟩
    ⟨['b'], 'a', 1, 1⟩ rfl rfl

/-- Claim C2, amended: every emitted token satisfies `start <= end` (for
any classifier tables with the Unicode `XID_Start` facts).  Strictness
fails exactly where the counterexample shows: identifiers cut off by
end-of-input miss the final column bump, and escape-path character
literals never advance the column at all. -/
theorem C2_amended_start_le_end :
    ∀ (fuel : Nat) (cls : XidClasses) (z : Bool) (s : LexState) (t : Token)
      (s' : LexState), goodClasses cls → next cls z fuel s = .tok t s' →
      t.start ≤ t.endCol := by
  intro fuel
  induction fuel with
  | zero =>
    intro cls z s t s' hg h
    rw [next_zero] at h
    simp at h
  | succ n ih =>
    intro cls z s t s' hg h
    unfold next at h
    split at h
    · simp at h
    · split at h
      · simp at h
      · rename_i s1 hsw
        split at h
        · obtain ⟨e1, e2, e3⟩ := opEq_shape h
          omega
        · split at h
          · obtain ⟨e1, e2, e3⟩ := opColon_shape h
            omega
          · split at h
            · obtain ⟨e1, e2, e3⟩ := opBang_shape h
              omega
            · split at h
              · dsimp only at h
                split at h
                · split at h
                  · simp at h
                  · exact ih _ _ _ _ _ hg h
                · injection h with h1 h2
                  subst h1
                  show s1.column ≤ (proceed s1).column
                  rw [proceed_column]
                  omega
              · split at h
                · dsimp only at h
                  split at h
                  · rename_i hguard
                    have hxid : cls.xidStart (proceed s1).lookahead = true ∨
                        (proceed s1).lookahead = '_' := by
                      simpa using hguard
                    split at h
                    · rename_i t2 s3 hrec
                      by_cases hnn : (proceed s1).lookahead = nulChar
                      · cases n with
                        | zero => rw [next_zero] at hrec; simp at hrec
                        | succ m => rw [next_nul hnn] at hrec; simp at hrec
                      · cases n with
                        | zero => rw [next_zero] at hrec; simp at hrec
                        | succ m =>
                          rw [next_on_xid hg hnn hxid] at hrec
                          obtain ⟨g1, g2, g3, id, hid⟩ := identBranch_shape hrec
                          rw [proceed_column] at g3
                          rw [hid] at h
                          dsimp only at h
                          split at h
                          · injection h with h1 h2
                            subst h1
                            show s1.column ≤ s3.column
                            omega
                          · injection h with h1 h2
                            subst h1
                            show s1.column ≤ (proceed s3).column
                            rw [proceed_column]
                            omega
                    · simp at h
                    · simp at h
                    · simp at h
                    · simp at h
                    · simp at h
                  · obtain ⟨e1, e2, e3⟩ := escCharBranch_shape h
                    omega
                · split at h
                  · obtain ⟨e1, e2, e3, e4⟩ := strBranch_shape h
                    omega
                  · split at h
                    · obtain ⟨e1, e2, e3, e4⟩ := identBranch_shape h
                      omega
                    · obtain ⟨e1, e2, e3⟩ := otherBranch_shape h
                      omega

/-- Witness for `C2_amended_start_le_end`: the single-character input `a`
(where moreover `start = end`, the boundary the amendment allows). -/
theorem C2_amended_start_le_end_witness :
    (⟨.identifier ['a'], 1, 1, 1⟩ : Token).start ≤
      (⟨.identifier ['a'], 1, 1, 1⟩ : Token).endCol :=
  C2_amended_start_le_end 2 asciiCls false ⟨[], 'a', 1, 1⟩
    ⟨.identifier ['a'], 1, 1, 1⟩ ⟨[], nulChar, 1, 1⟩ asciiGood (by decide)

/-- Claim C10: for classifier tables with the Unicode `XID_Start` facts
(no whitespace and none of the six dispatch characters is `XID_Start`),
`next` can never reach the `panic!()` in the apostrophe branch: the
speculative recursive call always lands in the identifier arm and returns
an `Identifier` token.  (The `unimplemented!()` of the `\u` escape is the
distinct outcome `.panicked "not yet implemented"`, which remains
reachable.) -/
theorem C10_no_explicit_panic :
    ∀ (fuel : Nat) (cls : XidClasses) (z : Bool) (s : LexState),
      goodClasses cls → next cls z fuel s ≠ .panicked "explicit panic" := by
  intro fuel
  induction fuel with
  | zero =>
    intro cls z s hg h
    rw [next_zero] at h
    simp at h
  | succ n ih =>
    intro cls z s hg h
    unfold next at h
    split at h
    · simp at h
    · split at h
      · simp at h
      · rename_i s1 hsw
        split at h
        · exact opEq_ne_panic _ _ h
        · split at h
          · exact opColon_ne_panic _ _ h
          · split at h
            · exact opBang_ne_panic _ _ h
            · split at h
              · dsimp only at h
                split at h
                · split at h
                  · simp at h
                  · exact ih _ _ _ hg h
                · simp at h
              · split at h
                · dsimp only at h
                  split at h
                  · rename_i hguard
                    have hxid : cls.xidStart (proceed s1).lookahead = true ∨
                        (proceed s1).lookahead = '_' := by
                      simpa using hguard
                    split at h
                    · rename_i t2 s3 hrec
                      by_cases hnn : (proceed s1).lookahead = nulChar
                      · cases n with
                        | zero => rw [next_zero] at hrec; simp at hrec
                        | succ m => rw [next_nul hnn] at hrec; simp at hrec
                      · cases n with
                        | zero => rw [next_zero] at hrec; simp at hrec
                        | succ m =>
                          rw [next_on_xid hg hnn hxid] at hrec
                          obtain ⟨g1, g2, g3, id, hid⟩ := identBranch_shape hrec
                          rw [hid] at h
                          dsimp only at h
                          split at h <;> simp at h
                    · simp at h
                    · simp at h
                    · rename_i m2 hrec
                      injection h with h1
                      subst h1
                      exact ih _ _ _ hg hrec
                    · simp at h
                    · simp at h
                  · exact absurd (escCharBranch_panic h) (by decide)
                · split at h
                  · exact absurd (strBranch_panic h) (by decide)
                  · split at h
                    · exact identBranch_ne_panic _ _ _ h
                    · exact otherBranch_ne_panic _ _ h

/-- Witness for `C10_no_explicit_panic` on the input `'x'`. -/
theorem C10_no_explicit_panic_witness :
    next asciiCls false 10 ⟨['x', '\''], '\'', 1, 1⟩ ≠
      .panicked "explicit panic" :=
  C10_no_explicit_panic 10 asciiCls false ⟨['x', '\''], '\'', 1, 1⟩ asciiGood

end RustLexer
